import Mathlib

/-!
Verification of the three keyboard-synthesizer variants of this repository
(`synth.py`, `wayDown.py`, `afterlife.py`).

Modelling conventions: IEEE floats are idealized as exact arithmetic.
Computations that stay inside the rationals in the programs (envelope levels,
frequency tables, gains) are embedded over `ℚ`; oscillator phases and waveform
samples, which involve `np.pi` and `np.sin`, are embedded over `ℝ` with
`Real.pi` and `Real.sin`.  Python dictionaries become insertion-ordered
association lists, Python sets become finite sets, and code that can raise an
exception returns `Option`.
-/

open Real

/-- Python's float `%` with the moduli used here: `a % b = a - b * ⌊a / b⌋`. -/
noncomputable def pyMod (a b : ℝ) : ℝ := a - b * ⌊a / b⌋

/-- `np.clip x lo hi`, which computes `min hi (max lo x)`. -/
def npClip {α : Type} [LinearOrder α] (x lo hi : α) : α := min hi (max lo x)

/-- Dictionary read (`d[k]` / `d.get(k)`) on an insertion-ordered association list. -/
def assocGet {κ ν : Type} [DecidableEq κ] : List (κ × ν) → κ → Option ν
  | [], _ => none
  | (k', v) :: rest, k => if k' = k then some v else assocGet rest k

/-- Dictionary write (`d[k] = v`): update in place if present, append otherwise. -/
def assocSet {κ ν : Type} [DecidableEq κ] : List (κ × ν) → κ → ν → List (κ × ν)
  | [], k, v => [(k, v)]
  | (k', v') :: rest, k, v =>
      if k' = k then (k, v) :: rest else (k', v') :: assocSet rest k v

/-- `SAMPLE_RATE = 44100`, shared by all three programs. -/
def SAMPLE_RATE : ℕ := 44100

namespace Synth

/-- `ATTACK_TIME = 0.01` seconds (synth.py). -/
def ATTACK_TIME : ℚ := 0.01

/-- `RELEASE_TIME = 0.05` seconds (synth.py). -/
def RELEASE_TIME : ℚ := 0.05

/-- `MASTER_GAIN = 0.4` (synth.py). -/
def MASTER_GAIN : ℚ := 0.4

/-- `max(1, int(ATTACK_TIME * SAMPLE_RATE))` — the attack ramp length in samples. -/
def attack_total : ℕ := max 1 (Int.toNat ⌊ATTACK_TIME * SAMPLE_RATE⌋)

/-- `max(1, int(RELEASE_TIME * SAMPLE_RATE))` — the release ramp length in samples. -/
def release_total : ℕ := max 1 (Int.toNat ⌊RELEASE_TIME * SAMPLE_RATE⌋)

/-- The `env_state` strings of synth.py: `"attack"`, `"sustain"`, `"release"`;
`other` stands for any further string, handled by the callback's `else` branch. -/
inductive EnvState : Type
  | attack
  | sustain
  | release
  | other
deriving DecidableEq

/-- One entry of `active_notes`: `{"phase": .., "env_level": .., "env_state": ..}`. -/
structure Note : Type where
  phase : ℝ
  env_level : ℚ
  env_state : EnvState

/-- Result of the per-note envelope section of `audio_callback`:
the per-sample envelope vector, the stored-back level and state, and whether
the note was appended to `notes_to_remove`. -/
structure EnvBlock : Type where
  vec : ℕ → ℚ
  level_end : ℚ
  state_end : EnvState
  remove : Bool

/-- The envelope section of `audio_callback` (synth.py lines 163-195) for one
note over a block of `frames` samples.  The ramp lengths are passed in; the
program instantiates them with `attack_total` and `release_total`. -/
def envBlock (aT rT : ℕ) (st : EnvState) (level : ℚ) (frames : ℕ) : EnvBlock :=
  match st with
  | .attack =>
      let step : ℚ := (1 - level) / aT
      let ramp : ℕ → ℚ := fun i => npClip (level + step * i) 0 1
      let level_end := ramp (frames - 1)
      if 0.999 ≤ level_end then ⟨fun _ => 1, 1, .sustain, false⟩
      else ⟨ramp, level_end, .attack, false⟩
  | .sustain => ⟨fun _ => level, level, .sustain, false⟩
  | .release =>
      let step : ℚ := (0 - level) / rT
      let ramp : ℕ → ℚ := fun i => npClip (level + step * i) 0 1
      let level_end := ramp (frames - 1)
      ⟨ramp, level_end, .release, decide (level_end ≤ 0.001)⟩
  | .other => ⟨fun _ => 0, 0, .other, false⟩

/-- `midi_to_freq(midi) = 440.0 * 2.0 ** ((midi - 69) / 12.0)`. -/
noncomputable def midi_to_freq (midi : ℤ) : ℝ :=
  440 * (2 : ℝ) ^ (((midi : ℝ) - 69) / 12)

/-- The phase stored back by `audio_callback` (synth.py line 204):
`(phase_array[-1] + omega / SAMPLE_RATE) % (2.0 * np.pi)` with
`phase_array[-1] = phase + omega * (frames - 1) / SAMPLE_RATE`. -/
noncomputable def phase_store (phase omega : ℝ) (frames : ℕ) : ℝ :=
  pyMod (phase + omega * (((frames - 1 : ℕ) : ℝ) / SAMPLE_RATE) + omega / SAMPLE_RATE)
    (2 * π)

/-- Per-note result of one `audio_callback` iteration: the enveloped waveform
samples, the updated note, and the removal flag. -/
structure NoteRender : Type where
  samples : ℕ → ℝ
  note : Note
  remove : Bool

/-- The body of the `for midi, note in active_notes.items()` loop of
`audio_callback` (synth.py lines 150-206) for one note. -/
noncomputable def noteBlock (midi : ℤ) (n : Note) (frames : ℕ) : NoteRender :=
  let freq := midi_to_freq midi
  let omega := 2 * π * freq
  let phase_array : ℕ → ℝ := fun i => n.phase + omega * ((i : ℝ) / SAMPLE_RATE)
  let wave : ℕ → ℝ := fun i =>
    Real.sin (phase_array i) + 0.3 * Real.sin (2 * phase_array i)
  let e := envBlock attack_total release_total n.env_state n.env_level frames
  { samples := fun i => wave i * ((e.vec i : ℚ) : ℝ)
    note := { phase := phase_store n.phase omega frames
              env_level := e.level_end
              env_state := e.state_end }
    remove := e.remove }

/-- `audio_callback` of synth.py: returns the mono output samples and the
`active_notes` store after removal of fully released notes. -/
noncomputable def audio_callback (notes : List (ℤ × Note)) (frames : ℕ) :
    (ℕ → ℝ) × List (ℤ × Note) :=
  if notes.isEmpty then (fun _ => 0, notes)
  else
    let rendered := notes.map fun p => (p.1, noteBlock p.1 p.2 frames)
    let sig : ℕ → ℝ := fun i => (rendered.map fun q => q.2.samples i).sum
    let kept := (rendered.filter fun q => !q.2.remove).map fun q => (q.1, q.2.note)
    let num_active : ℕ := max 1 kept.length
    (fun i => sig i * ((MASTER_GAIN : ℝ) / num_active), kept)

/-- The global performance state of synth.py. -/
structure State : Type where
  current_bank : Option Char
  current_octave_offset : ℤ
  active_notes : List (ℤ × Note)
  key_to_midis : List (Char × List ℤ)

/-- `BANK_KEYS = {'a','w','s','e','d','r','f'}`. -/
def BANK_KEYS : List Char := ['a', 'w', 's', 'e', 'd', 'r', 'f']

/-- `PLAYABLE_KEY_TO_DEGREE` of synth.py. -/
def PLAYABLE_KEY_TO_DEGREE : List (Char × ℕ) :=
  [('j', 0), ('i', 1), ('k', 2), ('o', 3), ('l', 4), ('p', 5), (';', 6)]

/-- `OCTAVE_DOWN_KEY = 'v'`. -/
def OCTAVE_DOWN_KEY : Char := 'v'

/-- `OCTAVE_UP_KEY = 'b'`. -/
def OCTAVE_UP_KEY : Char := 'b'

/-- `MIN_OCTAVE_OFFSET = -2`. -/
def MIN_OCTAVE_OFFSET : ℤ := -2

/-- `MAX_OCTAVE_OFFSET = 2`. -/
def MAX_OCTAVE_OFFSET : ℤ := 2

/-- The populated `bank_scales` table (synth.py lines 24-30). -/
def bank_scales : List (Char × List ℤ) :=
  [('a', [58, 60, 62, 63, 65, 67, 69]),
   ('w', [60, 62, 63, 65, 67, 69, 70]),
   ('s', [62, 63, 65, 67, 69, 70, 72]),
   ('e', [63, 65, 67, 69, 70, 72, 74]),
   ('d', [65, 67, 69, 70, 72, 74, 75]),
   ('r', [67, 69, 70, 72, 74, 75, 77]),
   ('f', [69, 70, 72, 74, 75, 77, 79])]

/-- `add_note_for_key(key_char, midi)` of synth.py. -/
def add_note_for_key (ch : Char) (midi : ℤ) (s : State) : State :=
  let prev := (assocGet s.key_to_midis ch).getD []
  let merged := if midi ∈ prev then prev else prev ++ [midi]
  let ktm := assocSet s.key_to_midis ch merged
  let an :=
    match assocGet s.active_notes midi with
    | none => assocSet s.active_notes midi ⟨0, 0, .attack⟩
    | some n =>
        if n.env_state = .release then
          assocSet s.active_notes midi { n with env_state := .attack }
        else s.active_notes
  { s with key_to_midis := ktm, active_notes := an }

/-- `release_notes_for_key(key_char)` of synth.py: pop the key's midi list and
put each of its live notes into the release state. -/
def release_notes_for_key (ch : Char) (s : State) : State :=
  let midis := (assocGet s.key_to_midis ch).getD []
  let ktm := s.key_to_midis.filter fun p => p.1 ≠ ch
  let an := midis.foldl
    (fun acc midi =>
      match assocGet acc midi with
      | none => acc
      | some n => assocSet acc midi { n with env_state := .release })
    s.active_notes
  { s with key_to_midis := ktm, active_notes := an }

/-- `on_press(key)` of synth.py, with the `bank_scales` table passed as the
configuration parameter it reads. -/
def on_press (scales : List (Char × List ℤ)) (ch : Char) (s : State) : State :=
  if (assocGet s.key_to_midis ch).getD [] ≠ [] then s
  else if ch ∈ BANK_KEYS then { s with current_bank := some ch }
  else if ch = OCTAVE_DOWN_KEY then
    if MIN_OCTAVE_OFFSET < s.current_octave_offset then
      { s with current_octave_offset := s.current_octave_offset - 1 }
    else s
  else if ch = OCTAVE_UP_KEY then
    if s.current_octave_offset < MAX_OCTAVE_OFFSET then
      { s with current_octave_offset := s.current_octave_offset + 1 }
    else s
  else
    match assocGet PLAYABLE_KEY_TO_DEGREE ch with
    | none => s
    | some degree =>
      match s.current_bank with
      | none => s
      | some b =>
        let scale := (assocGet scales b).getD []
        if scale.length ≠ 7 then s
        else
          match scale.get? degree with
          | none => s
          | some base => add_note_for_key ch (base + s.current_octave_offset * 12) s

end Synth

/-- One entry of an authored arrangement: either a single note name (a Python
`str`) or a chord (a Python `list` of names). -/
inductive NoteData : Type
  | single (name : String)
  | chord (names : List String)
deriving DecidableEq

/-- The `NOTE_FREQUENCIES` table carried identically by wayDown.py and
afterlife.py. -/
def NOTE_FREQUENCIES : List (String × ℚ) :=
  [("A0", 27.50), ("A#0", 29.14), ("B0", 30.87),
   ("C1", 32.70), ("C#1", 34.65), ("D1", 36.71), ("D#1", 38.89), ("E1", 41.20),
   ("F1", 43.65), ("F#1", 46.25), ("G1", 49.00), ("G#1", 51.91),
   ("A1", 55.00), ("A#1", 58.27), ("B1", 61.74),
   ("C2", 65.41), ("C#2", 69.30), ("D2", 73.42), ("D#2", 77.78), ("E2", 82.41),
   ("F2", 87.31), ("F#2", 92.50), ("G2", 98.00), ("G#2", 103.83),
   ("A2", 110.00), ("A#2", 116.54), ("B2", 123.47),
   ("C3", 130.81), ("C#3", 138.59), ("D3", 146.83), ("D#3", 155.56), ("E3", 164.81),
   ("F3", 174.61), ("F#3", 185.00), ("G3", 196.00), ("G#3", 207.65),
   ("A3", 220.00), ("A#3", 233.08), ("B3", 246.94),
   ("C4", 261.63), ("C#4", 277.18), ("D4", 293.66), ("D#4", 311.13), ("E4", 329.63),
   ("F4", 349.23), ("F#4", 369.99), ("G4", 392.00), ("G#4", 415.30),
   ("A4", 440.00), ("A#4", 466.16), ("B4", 493.88),
   ("C5", 523.25), ("C#5", 554.37), ("D5", 587.33), ("D#5", 622.25), ("E5", 659.25),
   ("F5", 698.46), ("F#5", 739.99), ("G5", 783.99), ("G#5", 830.61),
   ("A5", 880.00), ("A#5", 932.33), ("B5", 987.77),
   ("C6", 1046.50), ("C#6", 1108.73), ("D6", 1174.66), ("D#6", 1244.51), ("E6", 1318.51),
   ("F6", 1396.91), ("F#6", 1479.98), ("G6", 1567.98), ("G#6", 1661.22),
   ("A6", 1760.00), ("A#6", 1864.66), ("B6", 1975.53),
   ("C7", 2093.00), ("C#7", 2217.46), ("D7", 2349.32), ("D#7", 2489.02), ("E7", 2637.02),
   ("F7", 2793.83), ("F#7", 2959.96), ("G7", 3135.96), ("G#7", 3322.44),
   ("A7", 3520.00), ("A#7", 3729.31), ("B7", 3951.07),
   ("C8", 4186.01)]

/-- The note-to-frequency resolution shared by `start_note` in both
arrangement variants: a single name yields a one-element list, a chord maps
each name through the table; a missing name raises `KeyError` (`none`). -/
def resolve_freqs (nd : NoteData) : Option (List ℚ) :=
  match nd with
  | .single n => (assocGet NOTE_FREQUENCIES n).map fun f => [f]
  | .chord ns => ns.mapM (assocGet NOTE_FREQUENCIES)

namespace WayDown

/-- `NOTES_SNOWMAN` of wayDown.py. -/
def NOTES_SNOWMAN : List NoteData :=
  [.chord ["A#3", "C#4", "F4"],
   .chord ["A#3", "C#4", "F#3"],
   .chord ["A#3", "D#3", "F#3"],
   .chord ["A#3", "C#4", "F4"],
   .chord ["A#3", "C#4", "F#3"],
   .chord ["A#3", "D#3", "F#3"]]

/-- `NOTES_ELF` of wayDown.py. -/
def NOTES_ELF : List NoteData :=
  [.single "A#4", .single "D#5", .single "D#5", .single "C#5", .single "A#4",
   .single "G#4", .single "A#4", .single "A#4", .single "A#4", .single "A#4",
   .single "A#4", .single "A#4", .single "D#5", .single "D#5", .single "C#5",
   .single "A#4", .single "G#4", .single "A#4", .single "A#4", .single "A#4",
   .single "A#4", .single "A#4"]

/-- `NOTES_SANTA` of wayDown.py. -/
def NOTES_SANTA : List NoteData :=
  [.single "G4", .single "C5", .single "B4", .single "C5", .single "D5",
   .single "E5", .single "E5", .single "D5", .single "B4", .single "A4",
   .single "G4", .single "E5", .single "D5", .single "E5", .single "F5",
   .single "G5", .single "C5", .single "C5", .single "C5", .single "A5",
   .single "A5", .single "G5", .single "E5", .single "D5", .single "C5",
   .single "C5", .single "D5", .single "C5"]

/-- `NOTES_REINDEER = ["A4"]` of wayDown.py. -/
def NOTES_REINDEER : List NoteData := [.single "A4"]

/-- One `Instrument` of wayDown.py: its arrangement, cursor, and held flag. -/
structure Instrument : Type where
  notes : List NoteData
  index : ℕ
  is_pressed : Bool

/-- The state slice wayDown.py keeps for one instrument: the `Instrument`
object together with its `active_freqs[name]` and `phases[name]` entries. -/
structure WdState : Type where
  inst : Instrument
  freqs : Option (List ℚ)
  phases : List ℝ

/-- `start_note(inst)` of wayDown.py. -/
def start_note (s : WdState) : Option WdState :=
  if s.inst.is_pressed ∨ s.inst.notes.length = 0 then some s
  else
    match s.inst.notes.get? s.inst.index with
    | none => none
    | some nd =>
      match resolve_freqs nd with
      | none => none
      | some fs =>
        some { inst := { s.inst with is_pressed := true }
               freqs := some fs
               phases := fs.map fun _ => 0 }

/-- `stop_note(inst)` of wayDown.py: shut the oscillators off and advance the
cursor modulo the arrangement length. -/
def stop_note (s : WdState) : WdState :=
  if s.inst.is_pressed = false then s
  else
    { inst := { s.inst with
                  is_pressed := false
                  index := (s.inst.index + 1) % s.inst.notes.length }
      freqs := none
      phases := [] }

/-- The phase stored back per oscillator by `audio_callback` (wayDown.py line
157): `ph[-1] % (2 * np.pi)` with `ph[-1] = phase + phase_inc * (frames - 1)`. -/
noncomputable def osc_phase_store (phase : ℝ) (freq : ℚ) (frames : ℕ) : ℝ :=
  pyMod (phase + (2 * π * (freq : ℝ) / SAMPLE_RATE) * ((frames - 1 : ℕ) : ℝ)) (2 * π)

/-- One oscillator sample of `audio_callback` (wayDown.py lines 152-155):
`0.22 * np.sin(phase + phase_inc * i)`. -/
noncomputable def tone (freq : ℚ) (phase : ℝ) (i : ℕ) : ℝ :=
  0.22 * Real.sin (phase + (2 * π * (freq : ℝ) / SAMPLE_RATE) * (i : ℝ))

/-- The pre-clip mix of `audio_callback` over the non-idle instruments, each
given as its `active_freqs` entry paired with its `phases` list. -/
noncomputable def mix (insts : List (Option (List ℚ) × List ℝ)) (i : ℕ) : ℝ :=
  (insts.map fun p =>
    match p.1 with
    | none => (0 : ℝ)
    | some fs => ((fs.zip p.2).map fun q => tone q.1 q.2 i).sum).sum

/-- The output sample written by `audio_callback` (wayDown.py lines 164-167):
the mix clipped to `[-1, 1]`. -/
noncomputable def out_sample (insts : List (Option (List ℚ) × List ℝ)) (i : ℕ) : ℝ :=
  npClip (mix insts i) (-1) 1

end WayDown

namespace Afterlife

/-- `NOTES_SNOWMAN` of afterlife.py. -/
def NOTES_SNOWMAN : List NoteData :=
  [.single "D4", .single "F4", .single "D4", .single "A3",
   .single "D4", .single "F4", .single "D4", .single "A3",
   .chord ["D3", "A3"], .chord ["D3", "A3"], .chord ["D3", "A3"],
   .single "D4", .single "F4", .single "D4", .single "A3",
   .single "D4", .single "F4", .single "D4", .single "A3",
   .chord ["D3", "A3"], .chord ["D3", "A3"], .chord ["D3", "A3"],
   .chord ["C4", "F3"], .chord ["D4", "G3"], .chord ["D#4", "G#3"],
   .single "D4", .single "F4", .single "D4", .single "A3",
   .single "D4", .single "F4", .single "D4", .single "A3",
   .chord ["D3", "A3"], .chord ["D3", "A3"], .chord ["D3", "A3"],
   .single "D4", .single "F4", .single "D4", .single "A3",
   .single "D4", .single "F4", .single "D4", .single "A3",
   .chord ["D3", "A3"], .chord ["D3", "A3"], .chord ["D3", "A3"],
   .chord ["C4", "F3"], .chord ["D4", "G3"], .chord ["D#4", "G#3"],
   .chord ["D#4", "G#3"], .chord ["D4", "G3"], .chord ["C4", "F3"]]

/-- `NOTES_ELF = ['G4']` of afterlife.py. -/
def NOTES_ELF : List NoteData := [.single "G4"]

/-- `NOTES_SANTA = ['G4']` of afterlife.py. -/
def NOTES_SANTA : List NoteData := [.single "G4"]

/-- `NOTES_REINDEER = ['A4']` of afterlife.py. -/
def NOTES_REINDEER : List NoteData := [.single "A4"]

/-- One `Instrument` of afterlife.py: arrangement, cursor, and held-key set. -/
structure Instrument : Type where
  notes : List NoteData
  index : ℕ
  held_keys : Finset Char

/-- The state slice afterlife.py keeps for one instrument: the `Instrument`
object with its `active_freqs[name]` and `phases[name]` entries. -/
structure AfState : Type where
  inst : Instrument
  freqs : Option (List ℚ)
  phases : List ℝ

/-- `start_note(inst)` of afterlife.py: trigger the note at the cursor and
advance the cursor modulo the arrangement length. -/
def start_note (s : AfState) : Option AfState :=
  match s.inst.notes.get? s.inst.index with
  | none => none
  | some nd =>
    match resolve_freqs nd with
    | none => none
    | some fs =>
      some { inst := { s.inst with index := (s.inst.index + 1) % s.inst.notes.length }
             freqs := some fs
             phases := fs.map fun _ => 0 }

/-- `stop_note(inst)` of afterlife.py: silence the instrument; the cursor is
not touched here. -/
def stop_note (s : AfState) : AfState :=
  { s with freqs := none, phases := [] }

/-- `on_press` of afterlife.py restricted to a key `ch` bound to this
instrument by `KEYMAP`. -/
def on_press (ch : Char) (s : AfState) : Option AfState :=
  if ch ∈ s.inst.held_keys then some s
  else start_note { s with inst := { s.inst with held_keys := insert ch s.inst.held_keys } }

/-- `on_release` of afterlife.py restricted to a key `ch` bound to this
instrument by `KEYMAP`. -/
def on_release (ch : Char) (s : AfState) : AfState :=
  let inst := { s.inst with held_keys := s.inst.held_keys.erase ch }
  if inst.held_keys = ∅ then stop_note { s with inst := inst }
  else { s with inst := inst }

/-- The phase stored back per oscillator by `audio_callback` (afterlife.py
line 110): `(ph + inc * frames) % (2 * np.pi)`. -/
noncomputable def osc_phase_store (phase : ℝ) (freq : ℚ) (frames : ℕ) : ℝ :=
  pyMod (phase + (2 * π * (freq : ℝ) / SAMPLE_RATE) * (frames : ℝ)) (2 * π)

/-- One oscillator sample of `audio_callback` (afterlife.py line 109):
`0.22 * np.sin(ph + inc * i)`. -/
noncomputable def tone (freq : ℚ) (phase : ℝ) (i : ℕ) : ℝ :=
  0.22 * Real.sin (phase + (2 * π * (freq : ℝ) / SAMPLE_RATE) * (i : ℝ))

/-- The pre-clip mix of `audio_callback` over the non-idle instruments. -/
noncomputable def mix (insts : List (Option (List ℚ) × List ℝ)) (i : ℕ) : ℝ :=
  (insts.map fun p =>
    match p.1 with
    | none => (0 : ℝ)
    | some fs => ((fs.zip p.2).map fun q => tone q.1 q.2 i).sum).sum

/-- The output sample written by `audio_callback` (afterlife.py lines 116-117):
the mix clipped to `[-1, 1]`. -/
noncomputable def out_sample (insts : List (Option (List ℚ) × List ℝ)) (i : ℕ) : ℝ :=
  npClip (mix insts i) (-1) 1

end Afterlife

/-! ### Helper lemmas -/

theorem npClip_le_hi {α : Type} [LinearOrder α] (x lo hi : α) : npClip x lo hi ≤ hi :=
  min_le_left _ _

theorem lo_le_npClip {α : Type} [LinearOrder α] {lo hi : α} (x : α) (h : lo ≤ hi) :
    lo ≤ npClip x lo hi :=
  le_min h (le_max_left _ _)

theorem npClip_mono {α : Type} [LinearOrder α] (lo hi : α) {x y : α} (h : x ≤ y) :
    npClip x lo hi ≤ npClip y lo hi :=
  min_le_min (le_refl hi) (max_le_max (le_refl lo) h)

theorem npClip_of_le_lo {α : Type} [LinearOrder α] {x lo hi : α} (hx : x ≤ lo)
    (h : lo ≤ hi) : npClip x lo hi = lo := by
  unfold npClip
  rw [max_eq_left hx, min_eq_right h]

theorem assocGet_assocSet_self {κ ν : Type} [DecidableEq κ] (l : List (κ × ν))
    (k : κ) (v : ν) : assocGet (assocSet l k v) k = some v := by
  induction l with
  | nil => simp [assocGet, assocSet]
  | cons hd tl ih =>
    obtain ⟨k', v'⟩ := hd
    by_cases h : k' = k
    · simp [assocSet, assocGet, h]
    · simp [assocSet, assocGet, h, ih]

theorem assocGet_eq_none_iff {κ ν : Type} [DecidableEq κ] (l : List (κ × ν)) (k : κ) :
    assocGet l k = none ↔ k ∉ l.map Prod.fst := by
  induction l with
  | nil => simp [assocGet]
  | cons hd tl ih =>
    obtain ⟨k', v'⟩ := hd
    by_cases h : k' = k
    · simp [assocGet, h]
    · simp [assocGet, h, ih, Ne.symm h]

/-! ### Claim C4 -/

/-- Claim C4: in the performance mode (synth.py), for every envelope state,
every attack/release ramp length, every block size and every stored level in
`[0, 1]`, the per-sample envelope values produced by the render callback and
the stored-back level all remain within `[0, 1]`. -/
theorem C4_envelope_bounds (aT rT : ℕ) (st : Synth.EnvState) (level : ℚ)
    (frames : ℕ) (h0 : 0 ≤ level) (h1 : level ≤ 1) :
    (∀ i, 0 ≤ (Synth.envBlock aT rT st level frames).vec i ∧
          (Synth.envBlock aT rT st level frames).vec i ≤ 1) ∧
    0 ≤ (Synth.envBlock aT rT st level frames).level_end ∧
    (Synth.envBlock aT rT st level frames).level_end ≤ 1 := by
  cases st <;> simp only [Synth.envBlock]
  case attack =>
    split
    · exact ⟨fun i => ⟨zero_le_one, le_refl 1⟩, zero_le_one, le_refl 1⟩
    · exact ⟨fun i => ⟨lo_le_npClip _ zero_le_one, npClip_le_hi _ _ _⟩,
        lo_le_npClip _ zero_le_one, npClip_le_hi _ _ _⟩
  case sustain => exact ⟨fun i => ⟨h0, h1⟩, h0, h1⟩
  case release =>
    exact ⟨fun i => ⟨lo_le_npClip _ zero_le_one, npClip_le_hi _ _ _⟩,
      lo_le_npClip _ zero_le_one, npClip_le_hi _ _ _⟩
  case other => exact ⟨fun i => ⟨le_refl 0, zero_le_one⟩, le_refl 0, zero_le_one⟩

theorem C4_envelope_bounds_witness :
    (∀ i, 0 ≤ (Synth.envBlock Synth.attack_total Synth.release_total
                  .release (1/2) 256).vec i ∧
          (Synth.envBlock Synth.attack_total Synth.release_total
                  .release (1/2) 256).vec i ≤ 1) ∧
    0 ≤ (Synth.envBlock Synth.attack_total Synth.release_total
            .release (1/2) 256).level_end ∧
    (Synth.envBlock Synth.attack_total Synth.release_total
        .release (1/2) 256).level_end ≤ 1 :=
  C4_envelope_bounds Synth.attack_total Synth.release_total .release (1/2) 256
    (by norm_num) (by norm_num)

/-! ### Claim C5 -/

/-- Claim C5: in the performance mode (synth.py `add_note_for_key`), a trigger
for a pitch whose voice is already present in the `release` state transitions
that voice back to `attack` while keeping its envelope level (and phase)
unchanged, and a fresh voice with level `0` is created exactly when no voice
for that pitch exists. -/
theorem C5_reattack_preserves_level (s : Synth.State) (ch : Char) (midi : ℤ) :
    (∀ n : Synth.Note,
        assocGet s.active_notes midi = some n → n.env_state = .release →
        assocGet (Synth.add_note_for_key ch midi s).active_notes midi =
          some ⟨n.phase, n.env_level, .attack⟩) ∧
    (assocGet s.active_notes midi = none →
        assocGet (Synth.add_note_for_key ch midi s).active_notes midi =
          some ⟨0, 0, .attack⟩) := by
  constructor
  · intro n hn hrel
    simp only [Synth.add_note_for_key, hn, hrel, if_pos]
    exact assocGet_assocSet_self _ _ _
  · intro hn
    simp only [Synth.add_note_for_key, hn]
    exact assocGet_assocSet_self _ _ _

theorem C5_reattack_preserves_level_witness :
    assocGet (Synth.add_note_for_key 'j' 60
        ⟨some 'a', 0, [(60, ⟨1/4, 1/2, .release⟩)], []⟩).active_notes 60 =
      some ⟨1/4, 1/2, .attack⟩ :=
  (C5_reattack_preserves_level ⟨some 'a', 0, [(60, ⟨1/4, 1/2, .release⟩)], []⟩
      'j' 60).1 ⟨1/4, 1/2, .release⟩ (by rfl) (by rfl)

/-! ### Claim C6 -/

theorem noteBlock_remove_eq (midi : ℤ) (n : Synth.Note) (frames : ℕ) :
    (Synth.noteBlock midi n frames).remove =
      (Synth.envBlock Synth.attack_total Synth.release_total
        n.env_state n.env_level frames).remove := rfl

theorem assocGet_rendered_kept_of_not_mem (frames : ℕ) (midi : ℤ) :
    ∀ l : List (ℤ × Synth.Note), midi ∉ l.map Prod.fst →
      assocGet (((l.map fun p => (p.1, Synth.noteBlock p.1 p.2 frames)).filter
          fun q => !q.2.remove).map fun q => (q.1, q.2.note)) midi = none := by
  intro l
  induction l with
  | nil => intro _; simp [assocGet]
  | cons hd tl ih =>
    intro h
    simp only [List.map_cons, List.mem_cons, not_or] at h
    obtain ⟨h1, h2⟩ := h
    simp only [List.map_cons, List.filter_cons]
    split
    · simp only [List.map_cons, assocGet, if_neg (Ne.symm h1)]
      exact ih h2
    · exact ih h2

theorem assocGet_rendered_kept_of_removed (frames : ℕ) (midi : ℤ) (n : Synth.Note)
    (hrem : (Synth.noteBlock midi n frames).remove = true) :
    ∀ l : List (ℤ × Synth.Note), (l.map Prod.fst).Nodup → (midi, n) ∈ l →
      assocGet (((l.map fun p => (p.1, Synth.noteBlock p.1 p.2 frames)).filter
          fun q => !q.2.remove).map fun q => (q.1, q.2.note)) midi = none := by
  intro l
  induction l with
  | nil => intro _ hmem; simp at hmem
  | cons hd tl ih =>
    intro hnd hmem
    simp only [List.map_cons, List.nodup_cons] at hnd
    obtain ⟨hhd, htl⟩ := hnd
    rcases List.mem_cons.mp hmem with heq | hmem'
    · subst heq
      simp only [List.map_cons, List.filter_cons, hrem, Bool.not_true,
        Bool.false_eq_true, if_false]
      exact assocGet_rendered_kept_of_not_mem frames midi tl hhd
    · have hne : midi ≠ hd.1 := by
        intro he
        exact hhd (he ▸ (List.mem_map.mpr ⟨(midi, n), hmem', rfl⟩))
      simp only [List.map_cons, List.filter_cons]
      split
      · simp only [List.map_cons, assocGet, if_neg (Ne.symm hne)]
        exact ih htl hmem'
      · exact ih htl hmem'

/-- Claim C6 (amended): in the performance mode (synth.py), a voice in the
`release` state ramps linearly from its current level toward `0` with a slope
that reaches `0` after exactly `release_total` samples (i.e. `release_time`
seconds), stays in the `release` state, and is flagged for removal exactly
when the end-of-block level is `≤ 0.001`; every note so flagged is gone from
the voice store returned by `audio_callback` at the end of that same block.
The stored level is the clipped ramp endpoint, which is not forced to `0.0`. -/
theorem C6_release_ramp_and_removal (aT rT : ℕ) (level : ℚ) (frames : ℕ)
    (hrT : 1 ≤ rT) (h0 : 0 ≤ level) (h1 : level ≤ 1) :
    (Synth.envBlock aT rT .release level frames).vec 0 = level ∧
    (∀ i j : ℕ, i ≤ j →
      (Synth.envBlock aT rT .release level frames).vec j ≤
        (Synth.envBlock aT rT .release level frames).vec i) ∧
    (∀ i : ℕ, rT ≤ i → (Synth.envBlock aT rT .release level frames).vec i = 0) ∧
    (Synth.envBlock aT rT .release level frames).state_end = .release ∧
    ((Synth.envBlock aT rT .release level frames).remove = true ↔
      (Synth.envBlock aT rT .release level frames).level_end ≤ 0.001) ∧
    (∀ (notes : List (ℤ × Synth.Note)) (midi : ℤ) (n : Synth.Note),
      (notes.map Prod.fst).Nodup → (midi, n) ∈ notes →
      (Synth.noteBlock midi n frames).remove = true →
      assocGet (Synth.audio_callback notes frames).2 midi = none) := by
  have hrT0 : (0 : ℚ) < (rT : ℚ) := by exact_mod_cast hrT
  have hstep : (0 - level) / (rT : ℚ) ≤ 0 := by
    apply div_nonpos_of_nonpos_of_nonneg <;> [linarith; positivity]
  refine ⟨?_, ?_, ?_, ?_, ?_, ?_⟩
  · simp only [Synth.envBlock, Nat.cast_zero, mul_zero, add_zero]
    unfold npClip
    rw [max_eq_right h0, min_eq_right h1]
  · intro i j hij
    simp only [Synth.envBlock]
    apply npClip_mono
    have : (0 - level) / (rT : ℚ) * j ≤ (0 - level) / (rT : ℚ) * i :=
      mul_le_mul_of_nonpos_left (by exact_mod_cast hij) hstep
    linarith
  · intro i hi
    simp only [Synth.envBlock]
    have hcast : (rT : ℚ) ≤ (i : ℚ) := by exact_mod_cast hi
    have hmul : level * (rT : ℚ) ≤ level * (i : ℚ) :=
      mul_le_mul_of_nonneg_left hcast h0
    have hdiv : level ≤ level * (i : ℚ) / (rT : ℚ) :=
      (le_div_iff₀ hrT0).mpr hmul
    have harg : level + (0 - level) / (rT : ℚ) * (i : ℚ) =
        level - level * (i : ℚ) / (rT : ℚ) := by ring
    rw [harg]
    exact npClip_of_le_lo (by linarith) zero_le_one
  · simp [Synth.envBlock]
  · simp [Synth.envBlock, decide_eq_true_eq]
  · intro notes midi n hnd hmem hrem
    have hne : notes.isEmpty = false := by
      cases notes
      · simp at hmem
      · rfl
    simp only [Synth.audio_callback, hne, Bool.false_eq_true, if_false]
    exact assocGet_rendered_kept_of_removed frames midi n hrem notes hnd hmem

theorem C6_release_ramp_and_removal_witness :
    (Synth.envBlock Synth.attack_total Synth.release_total
        .release 1 4096).vec 0 = 1 ∧
    (∀ i j : ℕ, i ≤ j →
      (Synth.envBlock Synth.attack_total Synth.release_total .release 1 4096).vec j ≤
        (Synth.envBlock Synth.attack_total Synth.release_total .release 1 4096).vec i) ∧
    (∀ i : ℕ, Synth.release_total ≤ i →
      (Synth.envBlock Synth.attack_total Synth.release_total .release 1 4096).vec i = 0) ∧
    (Synth.envBlock Synth.attack_total Synth.release_total
        .release 1 4096).state_end = .release ∧
    ((Synth.envBlock Synth.attack_total Synth.release_total .release 1 4096).remove = true ↔
      (Synth.envBlock Synth.attack_total Synth.release_total
          .release 1 4096).level_end ≤ 0.001) ∧
    (∀ (notes : List (ℤ × Synth.Note)) (midi : ℤ) (n : Synth.Note),
      (notes.map Prod.fst).Nodup → (midi, n) ∈ notes →
      (Synth.noteBlock midi n 4096).remove = true →
      assocGet (Synth.audio_callback notes 4096).2 midi = none) :=
  C6_release_ramp_and_removal Synth.attack_total Synth.release_total 1 4096
    (by norm_num [Synth.release_total, Synth.RELEASE_TIME, SAMPLE_RATE])
    zero_le_one (le_refl 1)

/-- Counterexample to claim C6 as stated: with stored level `0.001` and a
one-sample block, the release branch flags the voice for removal but stores
back the level `0.001`, not an exact `0.0`. -/
theorem C6_stored_level_counterexample :
    (Synth.envBlock Synth.attack_total Synth.release_total
        .release 0.001 1).remove = true ∧
    (Synth.envBlock Synth.attack_total Synth.release_total
        .release 0.001 1).level_end = 0.001 ∧
    (Synth.envBlock Synth.attack_total Synth.release_total
        .release 0.001 1).level_end ≠ 0 := by
  have h : (Synth.envBlock Synth.attack_total Synth.release_total
      .release 0.001 1).level_end = 0.001 := by
    simp only [Synth.envBlock, Nat.sub_self, Nat.cast_zero, mul_zero, add_zero]
    unfold npClip
    rw [max_eq_right (by norm_num), min_eq_right (by norm_num)]
  refine ⟨?_, h, by rw [h]; norm_num⟩
  simp only [Synth.envBlock, Nat.sub_self, Nat.cast_zero, mul_zero, add_zero,
    decide_eq_true_eq]
  unfold npClip
  rw [max_eq_right (by norm_num), min_eq_right (by norm_num)]

/-! ### Claims C7 and C8 -/

theorem playable_char_cases (ch : Char) (d : ℕ)
    (h : assocGet Synth.PLAYABLE_KEY_TO_DEGREE ch = some d) :
    ch = 'j' ∨ ch = 'i' ∨ ch = 'k' ∨ ch = 'o' ∨ ch = 'l' ∨ ch = 'p' ∨ ch = ';' := by
  by_contra hcon
  push_neg at hcon
  obtain ⟨n1, n2, n3, n4, n5, n6, n7⟩ := hcon
  simp [Synth.PLAYABLE_KEY_TO_DEGREE, assocGet, Ne.symm n1, Ne.symm n2,
    Ne.symm n3, Ne.symm n4, Ne.symm n5, Ne.symm n6, Ne.symm n7] at h

theorem playable_char_not_command (ch : Char) (d : ℕ)
    (h : assocGet Synth.PLAYABLE_KEY_TO_DEGREE ch = some d) :
    ch ∉ Synth.BANK_KEYS ∧ ch ≠ Synth.OCTAVE_DOWN_KEY ∧ ch ≠ Synth.OCTAVE_UP_KEY := by
  rcases playable_char_cases ch d h with rfl | rfl | rfl | rfl | rfl | rfl | rfl <;>
    exact ⟨by decide, by decide, by decide⟩

theorem add_note_registers (ch : Char) (midi : ℤ) (s : Synth.State) :
    ∃ l, assocGet (Synth.add_note_for_key ch midi s).key_to_midis ch = some l ∧
      midi ∈ l := by
  refine ⟨if midi ∈ (assocGet s.key_to_midis ch).getD []
      then (assocGet s.key_to_midis ch).getD []
      else (assocGet s.key_to_midis ch).getD [] ++ [midi], ?_, ?_⟩
  · simp only [Synth.add_note_for_key]
    exact assocGet_assocSet_self _ _ _
  · split
    · assumption
    · simp

theorem add_note_voice_exists (ch : Char) (midi : ℤ) (s : Synth.State) :
    assocGet (Synth.add_note_for_key ch midi s).active_notes midi ≠ none := by
  cases h : assocGet s.active_notes midi with
  | none =>
      simp only [Synth.add_note_for_key, h]
      simp [assocGet_assocSet_self]
  | some n =>
      by_cases hr : n.env_state = Synth.EnvState.release
      · simp only [Synth.add_note_for_key, h, if_pos hr]
        simp [assocGet_assocSet_self]
      · simp only [Synth.add_note_for_key, h, if_neg hr]
        simp [h]

theorem on_press_resolves (s : Synth.State) (ch : Char) (d : ℕ) (b : Char)
    (scale : List ℤ) (base : ℤ)
    (hheld : (assocGet s.key_to_midis ch).getD [] = [])
    (hch : assocGet Synth.PLAYABLE_KEY_TO_DEGREE ch = some d)
    (hbank : s.current_bank = some b)
    (hscale : (assocGet Synth.bank_scales b).getD [] = scale)
    (hlen : scale.length = 7)
    (hbase : scale[d]? = some base) :
    Synth.on_press Synth.bank_scales ch s =
      Synth.add_note_for_key ch (base + s.current_octave_offset * 12) s := by
  obtain ⟨hb, hv, hbu⟩ := playable_char_not_command ch d hch
  simp [Synth.on_press, hheld, hb, hv, hbu, hbank, hch, hscale, hlen, hbase]

/-- Claim C7: in the performance mode (synth.py `on_press`), for a selected
bank whose scale has exactly 7 entries, a playable key-down with degree `d`
and octave offset `o ∈ [-2, 2]` resolves the pitch as `scale[d] + 12 * o`,
registers that pitch under the pressing key, and creates (or re-attacks) a
voice for it; in particular bank `'a' = [58,60,62,63,65,67,69]` with degree 0
gives pitch 46 at offset `-1` and pitch 82 at offset `+2`. -/
theorem C7_degree_resolution (s : Synth.State) (ch : Char) (d : ℕ) (b : Char)
    (scale : List ℤ) (base : ℤ)
    (hheld : (assocGet s.key_to_midis ch).getD [] = [])
    (hch : assocGet Synth.PLAYABLE_KEY_TO_DEGREE ch = some d)
    (hbank : s.current_bank = some b)
    (hscale : (assocGet Synth.bank_scales b).getD [] = scale)
    (hlen : scale.length = 7)
    (hbase : scale[d]? = some base)
    (ho : -2 ≤ s.current_octave_offset ∧ s.current_octave_offset ≤ 2) :
    (∃ l, assocGet (Synth.on_press Synth.bank_scales ch s).key_to_midis ch =
        some l ∧ (base + s.current_octave_offset * 12) ∈ l) ∧
    assocGet (Synth.on_press Synth.bank_scales ch s).active_notes
      (base + s.current_octave_offset * 12) ≠ none ∧
    assocGet (Synth.on_press Synth.bank_scales 'j'
        ⟨some 'a', -1, [], []⟩).key_to_midis 'j' = some [46] ∧
    assocGet (Synth.on_press Synth.bank_scales 'j'
        ⟨some 'a', 2, [], []⟩).key_to_midis 'j' = some [82] := by
  have hred := on_press_resolves s ch d b scale base hheld hch hbank hscale hlen hbase
  refine ⟨?_, ?_, by decide, by decide⟩
  · rw [hred]; exact add_note_registers ch _ s
  · rw [hred]; exact add_note_voice_exists ch _ s

theorem C7_degree_resolution_witness :
    (∃ l, assocGet (Synth.on_press Synth.bank_scales 'j'
        ⟨some 'a', -1, [], []⟩).key_to_midis 'j' = some l ∧ (46 : ℤ) ∈ l) ∧
    assocGet (Synth.on_press Synth.bank_scales 'j'
        ⟨some 'a', -1, [], []⟩).active_notes 46 ≠ none ∧
    assocGet (Synth.on_press Synth.bank_scales 'j'
        ⟨some 'a', -1, [], []⟩).key_to_midis 'j' = some [46] ∧
    assocGet (Synth.on_press Synth.bank_scales 'j'
        ⟨some 'a', 2, [], []⟩).key_to_midis 'j' = some [82] := by
  have h := C7_degree_resolution ⟨some 'a', -1, [], []⟩ 'j' 0 'a'
    [58, 60, 62, 63, 65, 67, 69] 58 (by rfl) (by decide) (by rfl) (by decide)
    (by decide) (by decide) (by decide)
  exact ⟨h.1, h.2.1, h.2.2.1, h.2.2.2⟩

/-- Claim C8: in the performance mode (synth.py `on_press`), a playable
key-down while no bank is selected, or while the selected bank's scale does
not have exactly 7 entries, leaves the whole state unchanged: no voice is
created and no performance state is touched. -/
theorem C8_incomplete_bank_rejection (scales : List (Char × List ℤ))
    (s : Synth.State) (ch : Char) (d : ℕ)
    (hheld : (assocGet s.key_to_midis ch).getD [] = [])
    (hch : assocGet Synth.PLAYABLE_KEY_TO_DEGREE ch = some d)
    (hrej : s.current_bank = none ∨
      ∃ b, s.current_bank = some b ∧ ((assocGet scales b).getD []).length ≠ 7) :
    Synth.on_press scales ch s = s := by
  obtain ⟨hb, hv, hbu⟩ := playable_char_not_command ch d hch
  rcases hrej with hnone | ⟨b, hsome, hlen⟩
  · simp [Synth.on_press, hheld, hb, hv, hbu, hch, hnone]
  · simp [Synth.on_press, hheld, hb, hv, hbu, hch, hsome, hlen]

theorem C8_incomplete_bank_rejection_witness :
    Synth.on_press [('a', ([] : List ℤ))] 'j'
        ⟨some 'a', 0, [], []⟩ = ⟨some 'a', 0, [], []⟩ :=
  C8_incomplete_bank_rejection [('a', [])] ⟨some 'a', 0, [], []⟩ 'j' 0
    (by rfl) (by decide) (Or.inr ⟨'a', rfl, by decide⟩)

/-! ### Claim C9 -/

theorem on_press_of_held (scales : List (Char × List ℤ)) (ch : Char)
    (s : Synth.State) (h : (assocGet s.key_to_midis ch).getD [] ≠ []) :
    Synth.on_press scales ch s = s := by
  simp [Synth.on_press, h]

theorem synth_press_idem (scales : List (Char × List ℤ)) (s : Synth.State)
    (ch : Char) (d : ℕ) (hch : assocGet Synth.PLAYABLE_KEY_TO_DEGREE ch = some d) :
    Synth.on_press scales ch (Synth.on_press scales ch s) =
      Synth.on_press scales ch s := by
  obtain ⟨hb, hv, hbu⟩ := playable_char_not_command ch d hch
  by_cases c0 : (assocGet s.key_to_midis ch).getD [] ≠ []
  · have hfs := on_press_of_held scales ch s c0
    rw [hfs]
    exact hfs
  · push_neg at c0
    cases hbank : s.current_bank with
    | none =>
        have hfs : Synth.on_press scales ch s = s := by
          simp [Synth.on_press, c0, hb, hv, hbu, hch, hbank]
        rw [hfs]
        exact hfs
    | some b =>
        by_cases hlen : ((assocGet scales b).getD []).length = 7
        · cases hbase : ((assocGet scales b).getD [])[d]? with
          | none =>
              have hfs : Synth.on_press scales ch s = s := by
                simp [Synth.on_press, c0, hb, hv, hbu, hch, hbank, hlen, hbase]
              rw [hfs]
              exact hfs
          | some base =>
              have hfs : Synth.on_press scales ch s =
                  Synth.add_note_for_key ch (base + s.current_octave_offset * 12) s := by
                simp [Synth.on_press, c0, hb, hv, hbu, hch, hbank, hlen, hbase]
              rw [hfs]
              apply on_press_of_held
              obtain ⟨l, hl, hm⟩ := add_note_registers ch
                (base + s.current_octave_offset * 12) s
              rw [hl, Option.getD_some]
              exact List.ne_nil_of_mem hm
        · have hfs : Synth.on_press scales ch s = s := by
            simp [Synth.on_press, c0, hb, hv, hbu, hch, hbank, hlen]
          rw [hfs]
          exact hfs

theorem wd_start_note_pressed (s s' : WayDown.WdState)
    (h : WayDown.start_note s = some s') :
    s'.inst.is_pressed = true ∨
      (s' = s ∧ (s.inst.is_pressed = true ∨ s.inst.notes.length = 0)) := by
  unfold WayDown.start_note at h
  split at h
  · right
    exact ⟨(Option.some.inj h).symm, by assumption⟩
  · split at h
    · exact absurd h (by simp)
    · split at h
      · exact absurd h (by simp)
      · left
        rw [← Option.some.inj h]

theorem af_on_press_mem (ch : Char) (s s' : Afterlife.AfState)
    (h : Afterlife.on_press ch s = some s') : ch ∈ s'.inst.held_keys := by
  unfold Afterlife.on_press at h
  split at h
  · rw [← Option.some.inj h]
    assumption
  · unfold Afterlife.start_note at h
    split at h
    · exact absurd h (by simp)
    · split at h
      · exact absurd h (by simp)
      · rw [← Option.some.inj h]
        exact Finset.mem_insert_self ch _

/-- Claim C9: in each variant, a second key-down edge for an already-held
trigger key is ignored: in synth.py a second `on_press` of a playable key is a
no-op on the whole state; in wayDown.py and afterlife.py a second trigger on
the state produced by a first one returns that state unchanged (exactly one
voice-start). -/
theorem C9_idempotent_trigger :
    (∀ (scales : List (Char × List ℤ)) (s : Synth.State) (ch : Char) (d : ℕ),
      assocGet Synth.PLAYABLE_KEY_TO_DEGREE ch = some d →
      Synth.on_press scales ch (Synth.on_press scales ch s) =
        Synth.on_press scales ch s) ∧
    (∀ s s' : WayDown.WdState, WayDown.start_note s = some s' →
      WayDown.start_note s' = some s') ∧
    (∀ (ch : Char) (s s' : Afterlife.AfState), Afterlife.on_press ch s = some s' →
      Afterlife.on_press ch s' = some s') := by
  refine ⟨fun scales s ch d hch => synth_press_idem scales s ch d hch, ?_, ?_⟩
  · intro s s' h
    rcases wd_start_note_pressed s s' h with hp | ⟨rfl, hc⟩
    · unfold WayDown.start_note
      rw [if_pos (Or.inl hp)]
    · unfold WayDown.start_note
      rw [if_pos hc]
  · intro ch s s' h
    have hm := af_on_press_mem ch s s' h
    unfold Afterlife.on_press
    rw [if_pos hm]

theorem C9_idempotent_trigger_witness :
    Synth.on_press Synth.bank_scales 'j'
        (Synth.on_press Synth.bank_scales 'j' ⟨some 'a', 0, [], []⟩) =
      Synth.on_press Synth.bank_scales 'j' ⟨some 'a', 0, [], []⟩ ∧
    WayDown.start_note ⟨⟨WayDown.NOTES_REINDEER, 0, true⟩, none, []⟩ =
      some ⟨⟨WayDown.NOTES_REINDEER, 0, true⟩, none, []⟩ ∧
    Afterlife.on_press 'p' ⟨⟨Afterlife.NOTES_ELF, 0, {'p'}⟩, none, []⟩ =
      some ⟨⟨Afterlife.NOTES_ELF, 0, {'p'}⟩, none, []⟩ :=
  ⟨C9_idempotent_trigger.1 Synth.bank_scales ⟨some 'a', 0, [], []⟩ 'j' 0 (by decide),
   C9_idempotent_trigger.2.1 ⟨⟨WayDown.NOTES_REINDEER, 0, true⟩, none, []⟩
     ⟨⟨WayDown.NOTES_REINDEER, 0, true⟩, none, []⟩ (by simp [WayDown.start_note]),
   C9_idempotent_trigger.2.2 'p' ⟨⟨Afterlife.NOTES_ELF, 0, {'p'}⟩, none, []⟩
     ⟨⟨Afterlife.NOTES_ELF, 0, {'p'}⟩, none, []⟩
     (by simp [Afterlife.on_press])⟩

/-! ### Claim C3 -/

/-- Claim C3 (amended): on the final release edge both arrangement variants
stop the active voice immediately (no release tail); in wayDown.py the cursor
also advances by one modulo the arrangement length at that release edge, while
in afterlife.py the release edge leaves the cursor unchanged (afterlife.py
advances it on the key-down edge, inside `start_note`). -/
theorem C3_release_edge_behaviour (sw : WayDown.WdState) (sa : Afterlife.AfState)
    (ch : Char) (hw : sw.inst.is_pressed = true)
    (ha : sa.inst.held_keys.erase ch = ∅) :
    (WayDown.stop_note sw).freqs = none ∧
    (WayDown.stop_note sw).phases = [] ∧
    (WayDown.stop_note sw).inst.is_pressed = false ∧
    (WayDown.stop_note sw).inst.index = (sw.inst.index + 1) % sw.inst.notes.length ∧
    (Afterlife.on_release ch sa).freqs = none ∧
    (Afterlife.on_release ch sa).phases = [] ∧
    (Afterlife.on_release ch sa).inst.index = sa.inst.index := by
  have hw' : ¬(sw.inst.is_pressed = false) := by simp [hw]
  refine ⟨?_, ?_, ?_, ?_, ?_, ?_, ?_⟩ <;>
    simp [WayDown.stop_note, Afterlife.on_release, Afterlife.stop_note, hw', ha]

theorem C3_release_edge_behaviour_witness :
    (WayDown.stop_note ⟨⟨WayDown.NOTES_SANTA, 0, true⟩, some [392], [0]⟩).freqs =
        none ∧
    (WayDown.stop_note ⟨⟨WayDown.NOTES_SANTA, 0, true⟩, some [392], [0]⟩).phases =
        [] ∧
    (WayDown.stop_note
        ⟨⟨WayDown.NOTES_SANTA, 0, true⟩, some [392], [0]⟩).inst.is_pressed = false ∧
    (WayDown.stop_note ⟨⟨WayDown.NOTES_SANTA, 0, true⟩, some [392], [0]⟩).inst.index =
        (0 + 1) % WayDown.NOTES_SANTA.length ∧
    (Afterlife.on_release 'i'
        ⟨⟨Afterlife.NOTES_REINDEER, 0, {'i'}⟩, some [440], [0]⟩).freqs = none ∧
    (Afterlife.on_release 'i'
        ⟨⟨Afterlife.NOTES_REINDEER, 0, {'i'}⟩, some [440], [0]⟩).phases = [] ∧
    (Afterlife.on_release 'i'
        ⟨⟨Afterlife.NOTES_REINDEER, 0, {'i'}⟩, some [440], [0]⟩).inst.index = 0 :=
  C3_release_edge_behaviour ⟨⟨WayDown.NOTES_SANTA, 0, true⟩, some [392], [0]⟩
    ⟨⟨Afterlife.NOTES_REINDEER, 0, {'i'}⟩, some [440], [0]⟩ 'i' rfl
    (by simp)

/-- Counterexample to claim C3 as stated: in afterlife.py, releasing the last
held key of the snowman instrument stops the voice but leaves the cursor at
its old value instead of advancing it by one modulo the arrangement length. -/
theorem C3_afterlife_cursor_counterexample :
    (Afterlife.on_release 'e'
        ⟨⟨Afterlife.NOTES_SNOWMAN, 0, {'e'}⟩, some [293.66], [0]⟩).freqs = none ∧
    (Afterlife.on_release 'e'
        ⟨⟨Afterlife.NOTES_SNOWMAN, 0, {'e'}⟩, some [293.66], [0]⟩).inst.index = 0 ∧
    (Afterlife.on_release 'e'
        ⟨⟨Afterlife.NOTES_SNOWMAN, 0, {'e'}⟩, some [293.66], [0]⟩).inst.index ≠
      (0 + 1) % Afterlife.NOTES_SNOWMAN.length := by
  have hc : ({'e'} : Finset Char).erase 'e' = ∅ := Finset.erase_singleton 'e'
  have hlen : Afterlife.NOTES_SNOWMAN.length = 53 := by decide
  refine ⟨?_, ?_, ?_⟩ <;>
    simp [Afterlife.on_release, Afterlife.stop_note, hc, hlen]

/-! ### Claim C1 -/

theorem pyMod_two_pi_mul (x : ℝ) : pyMod (2 * π * x) (2 * π) = 2 * π * (x - ⌊x⌋) := by
  unfold pyMod
  rw [mul_div_cancel_left₀ x (by positivity : (2 : ℝ) * π ≠ 0)]
  ring

theorem pyMod_eq_of_arg_eq {a b c : ℝ} (h : a = c) : pyMod a b = pyMod c b := by
  rw [h]

/-- The phase stored back by synth.py equals the old phase advanced by
`omega * frames / SAMPLE_RATE`, wrapped: synth.py is phase-continuous. -/
theorem synth_phase_store_continuity (p omega : ℝ) (n : ℕ) (h : 1 ≤ n) :
    Synth.phase_store p omega n =
      pyMod (p + omega * (n : ℝ) / SAMPLE_RATE) (2 * π) := by
  unfold Synth.phase_store
  apply pyMod_eq_of_arg_eq
  rw [Nat.cast_sub h, Nat.cast_one]
  ring

/-- The phase stored back by afterlife.py equals the old phase advanced by
`2π * freq * frames / SAMPLE_RATE`, wrapped: afterlife.py is phase-continuous. -/
theorem af_phase_store_continuity (p : ℝ) (f : ℚ) (n : ℕ) :
    Afterlife.osc_phase_store p f n =
      pyMod (p + 2 * π * (f : ℝ) * (n : ℝ) / SAMPLE_RATE) (2 * π) := by
  unfold Afterlife.osc_phase_store
  apply pyMod_eq_of_arg_eq
  ring

/-- Claim C1: the carried phase equals the old phase plus
`2π * frequency * frames / sample_rate` modulo `2π` in synth.py and in
afterlife.py, but not in wayDown.py: at frequency 440 Hz, phase 0 and block
size 512, wayDown.py stores `ph[-1] % 2π`, the phase of the block's last
sample, which falls one sample increment short of the continuation phase. -/
theorem C1_phase_continuity_bug :
    Synth.phase_store 0 (2 * π * 440) 512 =
        pyMod (0 + 2 * π * 440 * 512 / SAMPLE_RATE) (2 * π) ∧
    Afterlife.osc_phase_store 0 440 512 =
        pyMod (0 + 2 * π * 440 * 512 / SAMPLE_RATE) (2 * π) ∧
    WayDown.osc_phase_store 0 440 512 ≠
        pyMod (0 + 2 * π * 440 * 512 / SAMPLE_RATE) (2 * π) := by
  have hR : pyMod (0 + 2 * π * 440 * 512 / (SAMPLE_RATE : ℝ)) (2 * π) =
      2 * π * (225280 / 44100 - 5) := by
    rw [pyMod_eq_of_arg_eq (show (0 : ℝ) + 2 * π * 440 * 512 / (SAMPLE_RATE : ℝ) =
        2 * π * (225280 / 44100) from by norm_num [SAMPLE_RATE]; ring)]
    rw [pyMod_two_pi_mul]
    have hf : ⌊(225280 / 44100 : ℝ)⌋ = 5 := by
      rw [Int.floor_eq_iff]
      constructor <;> norm_num
    rw [hf]
    norm_num
  refine ⟨?_, ?_, ?_⟩
  · rw [synth_phase_store_continuity 0 (2 * π * 440) 512 (by norm_num)]
    apply pyMod_eq_of_arg_eq
    norm_num
  · rw [af_phase_store_continuity 0 440 512]
    apply pyMod_eq_of_arg_eq
    push_cast
    ring
  · have hL : WayDown.osc_phase_store 0 440 512 = 2 * π * (224840 / 44100 - 5) := by
      unfold WayDown.osc_phase_store
      rw [pyMod_eq_of_arg_eq (show (0 : ℝ) + 2 * π * ((440 : ℚ) : ℝ) / (SAMPLE_RATE : ℝ) *
          (((512 - 1 : ℕ)) : ℝ) = 2 * π * (224840 / 44100) from by
        push_cast [SAMPLE_RATE]
        norm_num
        ring)]
      rw [pyMod_two_pi_mul]
      have hf : ⌊(224840 / 44100 : ℝ)⌋ = 5 := by
        rw [Int.floor_eq_iff]
        constructor <;> norm_num
      rw [hf]
      norm_num
    rw [hL, hR]
    intro heq
    have h2 := mul_left_cancel₀ (by positivity : (2 : ℝ) * π ≠ 0) heq
    norm_num at h2

/-! ### Claim C2 -/

/-- Claim C2 (amended): wayDown.py and afterlife.py hard-clip every output
sample to `[-1, 1]`; synth.py applies no clip (see the counterexample, where
its output exceeds 1). -/
theorem C2_clipped_output_bounds :
    (∀ (insts : List (Option (List ℚ) × List ℝ)) (i : ℕ),
      -1 ≤ WayDown.out_sample insts i ∧ WayDown.out_sample insts i ≤ 1) ∧
    (∀ (insts : List (Option (List ℚ) × List ℝ)) (i : ℕ),
      -1 ≤ Afterlife.out_sample insts i ∧ Afterlife.out_sample insts i ≤ 1) :=
  ⟨fun insts i => ⟨lo_le_npClip _ (by norm_num), npClip_le_hi _ _ _⟩,
   fun insts i => ⟨lo_le_npClip _ (by norm_num), npClip_le_hi _ _ _⟩⟩

/-- Counterexample to claim C2 as stated: synth.py's `audio_callback` does not
clip.  With one sustained voice and two voices whose release completes inside
the block, both releasing voices are removed before the `0.4 / num_active`
normalization, and the first output sample is `(1+1+1) * 0.4 = 1.2 > 1`. -/
theorem C2_synth_unclipped_counterexample :
    1 < (Synth.audio_callback
      [(45, ⟨π / 2, 1, .sustain⟩), (57, ⟨π / 2, 1, .release⟩),
       (69, ⟨π / 2, 1, .release⟩)] 4096).1 0 := by
  have hrt : Synth.release_total = 2205 := by
    have h1 : ⌊Synth.RELEASE_TIME * ((SAMPLE_RATE : ℕ) : ℚ)⌋ = (2205 : ℤ) := by
      norm_num [Synth.RELEASE_TIME, SAMPLE_RATE]
    unfold Synth.release_total
    rw [h1]
    rfl
  have hlev : (Synth.envBlock Synth.attack_total Synth.release_total
      .release 1 4096).level_end = 0 := by
    simp only [Synth.envBlock]
    apply npClip_of_le_lo _ zero_le_one
    rw [hrt]
    push_cast
    norm_num
  have hremT : (Synth.envBlock Synth.attack_total Synth.release_total
      .release 1 4096).remove = true := by
    have hd : (Synth.envBlock Synth.attack_total Synth.release_total
        .release 1 4096).remove =
        decide ((Synth.envBlock Synth.attack_total Synth.release_total
          .release 1 4096).level_end ≤ 0.001) := rfl
    rw [hd, hlev]
    norm_num
  have hv1 : (Synth.envBlock Synth.attack_total Synth.release_total
      .sustain 1 4096).vec 0 = 1 := rfl
  have hv2 : (Synth.envBlock Synth.attack_total Synth.release_total
      .release 1 4096).vec 0 = 1 := by
    simp only [Synth.envBlock, Nat.cast_zero, mul_zero, add_zero]
    unfold npClip
    rw [max_eq_right zero_le_one, min_eq_right (le_refl 1)]
  have hw : ∀ (m : ℤ) (st : Synth.EnvState),
      (Synth.noteBlock m ⟨π / 2, 1, st⟩ 4096).samples 0 =
        ((Synth.envBlock Synth.attack_total Synth.release_total
          st 1 4096).vec 0 : ℝ) := by
    intro m st
    simp only [Synth.noteBlock, Nat.cast_zero, zero_div, mul_zero, add_zero]
    rw [Real.sin_pi_div_two, show 2 * (π / 2) = π from by ring, Real.sin_pi]
    ring
  have hflag1 : (Synth.noteBlock 45 ⟨π / 2, 1, .sustain⟩ 4096).remove = false := rfl
  have hflag2 : (Synth.noteBlock 57 ⟨π / 2, 1, .release⟩ 4096).remove = true :=
    (noteBlock_remove_eq 57 ⟨π / 2, 1, .release⟩ 4096).trans hremT
  have hflag3 : (Synth.noteBlock 69 ⟨π / 2, 1, .release⟩ 4096).remove = true :=
    (noteBlock_remove_eq 69 ⟨π / 2, 1, .release⟩ 4096).trans hremT
  simp only [Synth.audio_callback, List.isEmpty_cons, Bool.false_eq_true, if_false,
    List.map_cons, List.map_nil, List.filter_cons, List.filter_nil, hflag1, hflag2,
    hflag3, Bool.not_false, Bool.not_true, if_true, if_false, List.sum_cons,
    List.sum_nil, List.length_cons, List.length_nil]
  rw [hw 45 .sustain, hw 57 .release, hw 69 .release, hv1, hv2]
  norm_num [Synth.MASTER_GAIN]

/-! ### Claim C10 -/

/-- Claim C10: in the performance mode (synth.py `add_note_for_key`),
re-triggering a pitch whose voice already exists changes at most the voice's
envelope-state field, leaving phase and envelope level untouched; the phase is
initialized to `0.0` only when a brand-new voice is created. -/
theorem C10_reattack_frame_effect (s : Synth.State) (ch : Char) (midi : ℤ) :
    (∀ n : Synth.Note, assocGet s.active_notes midi = some n →
        assocGet (Synth.add_note_for_key ch midi s).active_notes midi =
          some ⟨n.phase, n.env_level,
                if n.env_state = .release then .attack else n.env_state⟩) ∧
    (assocGet s.active_notes midi = none →
        assocGet (Synth.add_note_for_key ch midi s).active_notes midi =
          some ⟨0, 0, .attack⟩) := by
  constructor
  · intro n hn
    by_cases hrel : n.env_state = .release
    · simp only [Synth.add_note_for_key, hn, hrel, if_pos]
      exact assocGet_assocSet_self _ _ _
    · simp only [Synth.add_note_for_key, hn, if_neg hrel]
  · intro hn
    simp only [Synth.add_note_for_key, hn]
    exact assocGet_assocSet_self _ _ _

theorem C10_reattack_frame_effect_witness :
    assocGet (Synth.add_note_for_key 'j' 60
        ⟨some 'a', 0, [(60, ⟨1/4, 1/2, .sustain⟩)], []⟩).active_notes 60 =
      some ⟨1/4, 1/2,
        if Synth.EnvState.sustain = .release then .attack
        else Synth.EnvState.sustain⟩ :=
  (C10_reattack_frame_effect ⟨some 'a', 0, [(60, ⟨1/4, 1/2, .sustain⟩)], []⟩
      'j' 60).1 ⟨1/4, 1/2, .sustain⟩ (by rfl)
